import Mathlib

/-!
# Group Approval Voting Engine — verification of the spec against the source

Shallow embedding of the voting engine of `src/bot/bot.ts` (class `Bot`):
the quorum calculator (`isGroupChat`, `getGroupMemberCount`, the
`requiredVotes` computation of `createVotingPoll`), the pending-poll
registry (`pendingPolls`, a JS `Map`), the vote-arrival handler
(`handlePollAnswer`) and the action dispatcher (`executeApprovedAction`),
together with the historical timer-based path (`checkPollResults`) kept in
the repository README.

JS `Map` objects are modelled as association lists in insertion order:
`Map.set` overwrites the first entry with the key in place and otherwise
appends, `Map.delete` removes the entry with the key, iteration follows
list order.  JS numbers that the engine uses as integers (member counts,
vote counts, user ids) are `Nat`/`Int`; the two fractional constants
(`0.3`, `0.6`) and the threshold are exact rationals.
-/

set_option autoImplicit false

namespace AptosTelegram

/-! ## Association-list model of JS `Map` -/

/-- JS `Map.set k v`: overwrite the first entry with key `k` in place,
otherwise append at the end (JS `Map` insertion-order semantics). -/
def mapSet {α β : Type} [DecidableEq α] : List (α × β) → α → β → List (α × β)
  | [], k, v => [(k, v)]
  | (k', v') :: rest, k, v =>
      if k' = k then (k, v) :: rest else (k', v') :: mapSet rest k v

/-- JS `Map.get k`: value of the first entry with key `k`. -/
def lookupKey {α β : Type} [DecidableEq α] : List (α × β) → α → Option β
  | [], _ => none
  | (k', v') :: rest, k => if k' = k then some v' else lookupKey rest k

/-- JS `Map.delete k`: remove the first entry with key `k`. -/
def eraseKey {α β : Type} [DecidableEq α] : List (α × β) → α → List (α × β)
  | [], _ => []
  | (k', v') :: rest, k => if k' = k then rest else (k', v') :: eraseKey rest k

/-- Number of entries carrying key `k` (1 for every key of a real JS `Map`). -/
def countKey {α β : Type} [DecidableEq α] (m : List (α × β)) (k : α) : Nat :=
  (m.filter (fun p => decide (p.1 = k))).length

/-- The keys of a map, in insertion order. -/
def keysOf {α β : Type} (m : List (α × β)) : List α := m.map Prod.fst

/-! ## Chat types and the quorum calculator -/

/-- Telegram chat types relevant to `ctx.chat?.type`. -/
inductive ChatType : Type
  | privateChat
  | group
  | supergroup
  | channel
deriving DecidableEq, Repr

/-- Source `isGroupChat` (bot.ts): `ctx.chat?.type === 'group' || ctx.chat?.type === 'supergroup'`. -/
def isGroupChat (t : ChatType) : Bool :=
  decide (t = ChatType.group) || decide (t = ChatType.supergroup)

/-- Source `getGroupMemberCount` (bot.ts): returns 1 for a private chat; otherwise
asks the Telegram API (`ctx.api.getChatMemberCount`), and on any error falls
back to 1.  The oracle call is the `Except` argument. -/
def getGroupMemberCount (chatType : ChatType) (oracle : Except Unit Nat) : Nat :=
  if isGroupChat chatType = false then 1
  else
    match oracle with
    | Except.ok n => n
    | Except.error _ => 1

/-- The `requiredVotes` computation inlined in `createVotingPoll` (bot.ts):
`Math.max(2, Math.min(10, Math.ceil(memberCount * 0.3)))` for a group chat,
1 for a private chat.  `0.3` is modelled as the exact rational `3/10`. -/
def requiredVotesCalc (isGroup : Bool) (memberCount : Nat) : Nat :=
  if isGroup then max 2 (min 10 ⌈(memberCount : ℚ) * (3 / 10)⌉₊) else 1

/-- The quorum actually used by `createVotingPoll` for a chat and an oracle
answer: member count through `getGroupMemberCount`, then the clamp formula. -/
def createVotingPollRequired (chatType : ChatType) (oracle : Except Unit Nat) : Nat :=
  requiredVotesCalc (isGroupChat chatType) (getGroupMemberCount chatType oracle)

/-! ## Arithmetic helper: the rational ceiling as Nat division -/

lemma natCeil_div_ten (m : Nat) : ⌈(m : ℚ) / 10⌉₊ = (m + 9) / 10 := by
  rcases Nat.eq_zero_or_pos m with hm | hm
  · subst hm; norm_num
  · have hdm := Nat.div_add_mod (m + 9) 10
    have hr : (m + 9) % 10 < 10 := Nat.mod_lt _ (by norm_num)
    have hn : (m + 9) / 10 ≠ 0 := by
      have h1 : 1 ≤ (m + 9) / 10 := (Nat.one_le_div_iff (by norm_num)).mpr (by omega)
      omega
    rw [Nat.ceil_eq_iff hn]
    constructor
    · rw [lt_div_iff₀ (by norm_num : (0 : ℚ) < 10)]
      have hlt : ((m + 9) / 10 - 1) * 10 < m := by omega
      exact_mod_cast hlt
    · rw [div_le_iff₀ (by norm_num : (0 : ℚ) < 10)]
      have hle : m ≤ (m + 9) / 10 * 10 := by omega
      exact_mod_cast hle

lemma natCeil_mul_three_tenths (N : Nat) : ⌈(N : ℚ) * (3 / 10)⌉₊ = (3 * N + 9) / 10 := by
  have h : (N : ℚ) * (3 / 10) = ((3 * N : Nat) : ℚ) / 10 := by push_cast; ring
  rw [h, natCeil_div_ten]

/-- C3: the quorum calculator returns `clamp(ceil(0.3*N), 2, 10)` for group
and supergroup chats and 1 for a private chat; the clamped ceiling also has
the executable closed form `(3*N + 9) / 10`. -/
theorem quorum_formula (N : Nat) :
    requiredVotesCalc (isGroupChat ChatType.group) N =
      max 2 (min 10 ⌈(3 * N : ℚ) / 10⌉₊) ∧
    requiredVotesCalc (isGroupChat ChatType.supergroup) N =
      max 2 (min 10 ⌈(3 * N : ℚ) / 10⌉₊) ∧
    requiredVotesCalc (isGroupChat ChatType.privateChat) N = 1 ∧
    requiredVotesCalc (isGroupChat ChatType.group) N =
      max 2 (min 10 ((3 * N + 9) / 10)) := by
  have hceil : ⌈(N : ℚ) * (3 / 10)⌉₊ = ⌈(3 * N : ℚ) / 10⌉₊ := by
    congr 1
    ring
  refine ⟨?_, ?_, ?_, ?_⟩
  · simp [requiredVotesCalc, isGroupChat, hceil]
  · simp [requiredVotesCalc, isGroupChat, hceil]
  · simp [requiredVotesCalc, isGroupChat]
  · simp [requiredVotesCalc, isGroupChat, natCeil_mul_three_tenths]

/-! ## Data model: pending polls and action payloads -/

/-- The duck-typed `data` object stored with a pending poll.  Each call site
of `createVotingPoll` fills a subset of these fields; absent fields are JS
`undefined`, i.e. `none`. -/
structure ActionData : Type where
  marketId : Option String := none
  orderSide : Option String := none
  leverage : Option String := none
  orderType : Option String := none
  size : Option ℚ := none
  limitPrice : Option ℚ := none
  orderId : Option String := none
  tradeId : Option String := none
  tradeSide : Option Bool := none
  chatId : Option Int := none
deriving DecidableEq, Repr

/-- An entry of the `pendingPolls` map (bot.ts line 36): the Telegram poll
id (`poll.poll.id`, the external id votes arrive under), the action string,
its payload, the per-voter vote map (`voters`), the quorum threshold, and
the origin chat/message.  `startTime` is omitted: nothing in the engine
reads it. -/
structure PendingPoll : Type where
  pollId : String
  action : String
  data : ActionData
  voters : List (Nat × Option Nat)
  requiredVotes : Nat
  chatId : Int
  messageId : Nat
deriving DecidableEq, Repr

/-- Number of stored votes equal to choice `j` (`0` approve, `1` reject):
`Array.from(voters.values()).filter(vote => vote === j).length`.  A voter
whose stored value is `undefined` (`none`) matches neither. -/
def countChoice (voters : List (Nat × Option Nat)) (j : Nat) : Nat :=
  (voters.filter (fun p => decide (p.2 = some j))).length

/-! ## The vote-arrival state machine (`handlePollAnswer`) -/

/-- The visible effect of one `handlePollAnswer` run: nothing (stale vote),
a progress edit of the poll message, or a terminal resolution.  The
approved resolution carries the action and payload handed to
`executeApprovedAction`; the rejected one only sends the rejection notice
to the origin chat. -/
inductive StepEffect : Type
  | notFound
  | progress (total required approve reject : Nat)
  | resolvedApproved (action : String) (data : ActionData) (chatId : Int)
  | resolvedRejected (chatId : Int)
deriving DecidableEq, Repr

/-- Whether an effect is a terminal resolution (the branch of
`handlePollAnswer` that deletes the entry and dispatches/report). -/
def StepEffect.isResolved : StepEffect → Bool
  | StepEffect.resolvedApproved _ _ _ => true
  | StepEffect.resolvedRejected _ => true
  | _ => false

/-- Source `handlePollAnswer` (bot.ts 4182-4242).  Looks up the first entry of
`pendingPolls` whose `pollId` equals the incoming `poll_id`; if absent,
returns with no state change.  Otherwise stores `option_ids[0]` for the
voter (insert-or-overwrite), counts the tally, and either resolves
(deleting the entry in the same synchronous section, then approving iff
`approve > reject`) or stays open with a progress edit.  `optionIds.head?`
is `option_ids[0]`: `none`/JS `undefined` when the vote was retracted. -/
def handlePollAnswer (reg : List (String × PendingPoll)) (pollId : String)
    (userId : Nat) (optionIds : List Nat) :
    List (String × PendingPoll) × StepEffect :=
  match reg.find? (fun e => decide (e.2.pollId = pollId)) with
  | none => (reg, StepEffect.notFound)
  | some (foundPollKey, foundPoll) =>
      let voteOption := optionIds.head?
      let voters := mapSet foundPoll.voters userId voteOption
      let totalVotes := voters.length
      let approveVotes := countChoice voters 0
      let rejectVotes := countChoice voters 1
      if totalVotes ≥ foundPoll.requiredVotes then
        (eraseKey reg foundPollKey,
         if approveVotes > rejectVotes then
           StepEffect.resolvedApproved foundPoll.action foundPoll.data foundPoll.chatId
         else
           StepEffect.resolvedRejected foundPoll.chatId)
      else
        (mapSet reg foundPollKey { foundPoll with voters := voters },
         StepEffect.progress totalVotes foundPoll.requiredVotes approveVotes rejectVotes)

/-! ## The action dispatcher (`executeApprovedAction`) -/

/-- The executor collaborator invoked in the approved branch, one
constructor per `case` of the `switch` in `executeApprovedAction`, carrying
exactly the stored payload fields that the source forwards. -/
inductive ExecCall : Type
  | executeOrderDirect (marketId orderSide leverage orderType : Option String)
      (size limitPrice : Option ℚ)
  | cancelOrderDirect (orderId : Option String)
  | closePositionDirect (tradeId marketId : Option String) (tradeSide : Option Bool)
deriving DecidableEq, Repr

/-- Outcome of `executeApprovedAction`: bail out without chat id, invoke an
executor (with the error message the surrounding `catch` would send to the
chat when the executor throws), or hit the `default` branch, which only
logs `Unknown action` and sends nothing. -/
inductive DispatchOutcome : Type
  | noChatId
  | executed (chatId : Int) (call : ExecCall) (errorReport : Option String)
  | unknownAction (chatId : Int)
deriving DecidableEq, Repr

/-- JS `a || b` on chat ids: `a` wins unless it is `undefined` or the falsy
number `0`. -/
def jsOrInt (a b : Option Int) : Option Int :=
  match a with
  | some x => if x = 0 then b else some x
  | none => b

/-- The message sent by the `catch` of `executeApprovedAction` when the
executor throws. -/
def execErrorReport (action : String) (r : Except String Unit) : Option String :=
  match r with
  | Except.ok _ => none
  | Except.error m => some ("Error executing " ++ action ++ ": " ++ m)

/-- Source `executeApprovedAction` (bot.ts 4244-4283): resolve the chat id as
`ctx.chat?.id || data.chatId` (bail out when falsy), then `switch` over the
action string — `place_order`, `cancel_order` and `close_position` invoke
their executor with the stored payload; every other action falls to the
`default` branch.  `runExec` is the external executor collaborator. -/
def executeApprovedAction (ctxChatId : Option Int) (action : String)
    (data : ActionData) (runExec : ExecCall → Except String Unit) :
    DispatchOutcome :=
  match jsOrInt ctxChatId data.chatId with
  | none => DispatchOutcome.noChatId
  | some c =>
      if c = 0 then DispatchOutcome.noChatId
      else if action = "place_order" then
        DispatchOutcome.executed c
          (ExecCall.executeOrderDirect data.marketId data.orderSide data.leverage
            data.orderType data.size data.limitPrice)
          (execErrorReport action (runExec
            (ExecCall.executeOrderDirect data.marketId data.orderSide data.leverage
              data.orderType data.size data.limitPrice)))
      else if action = "cancel_order" then
        DispatchOutcome.executed c (ExecCall.cancelOrderDirect data.orderId)
          (execErrorReport action (runExec (ExecCall.cancelOrderDirect data.orderId)))
      else if action = "close_position" then
        DispatchOutcome.executed c
          (ExecCall.closePositionDirect data.tradeId data.marketId data.tradeSide)
          (execErrorReport action (runExec
            (ExecCall.closePositionDirect data.tradeId data.marketId data.tradeSide)))
      else DispatchOutcome.unknownAction c

/-- The dispatcher as driven by a step effect: `executeApprovedAction` runs
only in the `resolvedApproved` branch of `handlePollAnswer`; a rejection
(and any non-terminal effect) never reaches an executor. -/
def dispatchEffect (ctxChatId : Option Int)
    (runExec : ExecCall → Except String Unit) : StepEffect → Option DispatchOutcome
  | StepEffect.resolvedApproved action data _ =>
      some (executeApprovedAction ctxChatId action data runExec)
  | _ => none

/-! ## Poll creation (`createVotingPoll`) and its caller (`executeOrder`) -/

/-- The values the Poll Transport returns when `ctx.reply` and
`ctx.api.sendPoll` both succeed. -/
structure TransportOk : Type where
  messageId : Nat
  externalPollId : String
deriving DecidableEq, Repr

/-- Source `createVotingPoll` (bot.ts 4132-4180): member count via the oracle,
quorum via the clamp formula, then the transport calls (`ctx.reply`,
`ctx.api.sendPoll`); only after they succeed is the entry registered in
`pendingPolls` under a fresh key.  A transport throw (`Except.error`)
propagates to the caller before `pendingPolls.set` runs, so the registry is
returned unchanged. -/
def createVotingPoll (reg : List (String × PendingPoll)) (chatType : ChatType)
    (oracle : Except Unit Nat) (transport : Except String TransportOk)
    (pollKey action : String) (data : ActionData) (chatId : Int) :
    List (String × PendingPoll) × Except String String :=
  let memberCount := getGroupMemberCount chatType oracle
  let requiredVotes := requiredVotesCalc (isGroupChat chatType) memberCount
  match transport with
  | Except.error e => (reg, Except.error e)
  | Except.ok t =>
      (mapSet reg pollKey
        { pollId := t.externalPollId
          action := action
          data := data
          voters := []
          requiredVotes := requiredVotes
          chatId := chatId
          messageId := t.messageId },
       Except.ok pollKey)

/-- Source `executeOrder` (bot.ts 2094-2138), the `place_order` proposer: checks
the market, then calls `createVotingPoll` inside `try`/`catch`; a throw is
caught and reported to the proposer as `Error creating order poll: …`
(second component), leaving the registry as it was. -/
def executeOrder (reg : List (String × PendingPoll)) (marketFound : Bool)
    (chatType : ChatType) (oracle : Except Unit Nat)
    (transport : Except String TransportOk) (pollKey : String)
    (data : ActionData) (chatId : Int) :
    List (String × PendingPoll) × Option String :=
  if marketFound = false then (reg, some "Market not found.")
  else
    match createVotingPoll reg chatType oracle transport pollKey "place_order" data chatId with
    | (reg2, Except.ok _) => (reg2, none)
    | (_, Except.error e) => (reg, some ("Error creating order poll: " ++ e))

/-! ## The historical timer path (README, `checkPollResults`) -/

/-- An entry of the historical `pendingVotes` map (README): the action, its
payload and the `Set` of voter ids — no vote choices are stored at all. -/
structure VoteDataHist : Type where
  pollId : String
  action : String
  voters : List Nat
deriving DecidableEq, Repr

/-- Outcome of the historical deadline check: entry already gone, or the
approved/rejected stub notification. -/
inductive DeadlineOutcome : Type
  | noEntry
  | approvedExec (action : String)
  | rejectedNotice (action : String)
deriving DecidableEq, Repr

/-- Source `checkPollResults` (README 3643-3667), run once by the `setTimeout` of
`setupPollResultHandler` after `votingTimePeriod` seconds (+5 s buffer,
default 300 s).  It looks up the entry, takes `totalVotes` from the voter
set, *simulates* the approval count as `Math.floor(totalVotes * 0.6)`
(the comment in the source says the real poll results would need the
Telegram API), approves iff `totalVotes > 0` and the simulated ratio
reaches `votingThreshold` (default 0.5), and deletes the entry either
way. -/
def checkPollResults (pendingVotes : List (String × VoteDataHist))
    (pollKey : String) (votingThreshold : ℚ) :
    List (String × VoteDataHist) × DeadlineOutcome :=
  match lookupKey pendingVotes pollKey with
  | none => (pendingVotes, DeadlineOutcome.noEntry)
  | some voteData =>
      let totalVotes := voteData.voters.length
      let approvalVotes := totalVotes * 6 / 10
      let approved :=
        decide (0 < totalVotes) &&
          decide (votingThreshold ≤ (approvalVotes : ℚ) / (totalVotes : ℚ))
      if approved then
        (eraseKey pendingVotes pollKey, DeadlineOutcome.approvedExec voteData.action)
      else
        (eraseKey pendingVotes pollKey, DeadlineOutcome.rejectedNotice voteData.action)

/-- The deadline resolution rule exactly as the spec words it (spec §4.2):
`approve / max(total,1) ≥ approvalThreshold`.  Stated for comparison with
`checkPollResults`; it is not what any source revision computes. -/
def deadlineRuleSpec (approve total : Nat) (approvalThreshold : ℚ) : Bool :=
  decide (approvalThreshold ≤ (approve : ℚ) / ((max total 1 : Nat) : ℚ))

/-! ## Lemmas about the map model -/

section MapLemmas

variable {α β : Type} [DecidableEq α]

lemma lookupKey_mapSet_self (m : List (α × β)) (k : α) (v : β) :
    lookupKey (mapSet m k v) k = some v := by
  induction m with
  | nil => simp [mapSet, lookupKey]
  | cons hd tl ih =>
      obtain ⟨k', v'⟩ := hd
      by_cases hk : k' = k
      · simp [mapSet, hk, lookupKey]
      · simp [mapSet, hk, lookupKey, ih]

lemma mapSet_mapSet_same (m : List (α × β)) (k : α) (a b : β) :
    mapSet (mapSet m k a) k b = mapSet m k b := by
  induction m with
  | nil => simp [mapSet]
  | cons hd tl ih =>
      obtain ⟨k', v'⟩ := hd
      by_cases hk : k' = k
      · simp [mapSet, hk]
      · simp [mapSet, hk, ih]

lemma length_mapSet_eraseKey (m : List (α × β)) (k : α) (v : β) :
    (mapSet m k v).length = (eraseKey m k).length + 1 := by
  induction m with
  | nil => simp [mapSet, eraseKey]
  | cons hd tl ih =>
      obtain ⟨k', v'⟩ := hd
      by_cases hk : k' = k
      · simp [mapSet, eraseKey, hk]
      · simp [mapSet, eraseKey, hk, ih]

lemma mem_keysOf_mapSet (m : List (α × β)) (k : α) (v : β) (a : α) :
    a ∈ keysOf (mapSet m k v) ↔ a ∈ keysOf m ∨ a = k := by
  induction m with
  | nil => simp [mapSet, keysOf]
  | cons hd tl ih =>
      obtain ⟨k', v'⟩ := hd
      by_cases hk : k' = k
      · subst hk
        simp only [mapSet, if_pos, keysOf, List.map_cons, List.mem_cons]
        tauto
      · simp only [mapSet, if_neg hk, keysOf, List.map_cons, List.mem_cons] at ih ⊢
        rw [ih]
        tauto

lemma nodup_keysOf_mapSet (m : List (α × β)) (k : α) (v : β)
    (hnd : (keysOf m).Nodup) : (keysOf (mapSet m k v)).Nodup := by
  induction m with
  | nil => simp [mapSet, keysOf]
  | cons hd tl ih =>
      obtain ⟨k', v'⟩ := hd
      simp only [keysOf, List.map_cons, List.nodup_cons] at hnd
      by_cases hk : k' = k
      · subst hk
        simpa [mapSet, keysOf, List.nodup_cons] using hnd
      · have ih2 := ih hnd.2
        simp only [mapSet, if_neg hk, keysOf, List.map_cons, List.nodup_cons]
        refine ⟨?_, ih2⟩
        intro hmem
        rcases (mem_keysOf_mapSet tl k v k').mp hmem with h | h
        · exact hnd.1 h
        · exact hk h

lemma keysOf_eraseKey_sublist (m : List (α × β)) (k : α) :
    List.Sublist (keysOf (eraseKey m k)) (keysOf m) := by
  induction m with
  | nil => simp [eraseKey, keysOf]
  | cons hd tl ih =>
      obtain ⟨k', v'⟩ := hd
      by_cases hk : k' = k
      · simp only [eraseKey, if_pos hk, keysOf]
        exact List.sublist_cons_self k' (keysOf tl)
      · simpa [eraseKey, hk, keysOf] using List.Sublist.cons₂ k' ih

lemma nodup_keysOf_eraseKey (m : List (α × β)) (k : α)
    (hnd : (keysOf m).Nodup) : (keysOf (eraseKey m k)).Nodup :=
  hnd.sublist (keysOf_eraseKey_sublist m k)

lemma countKey_mapSet_self (m : List (α × β)) (k : α) (v : β)
    (hnd : (keysOf m).Nodup) : countKey (mapSet m k v) k = 1 := by
  induction m with
  | nil => simp [mapSet, countKey]
  | cons hd tl ih =>
      obtain ⟨k', v'⟩ := hd
      simp only [keysOf, List.map_cons, List.nodup_cons] at hnd
      by_cases hk : k' = k
      · subst hk
        have : countKey tl k' = 0 := by
          simp only [countKey, List.length_eq_zero, List.filter_eq_nil_iff]
          intro p hp
          simp only [decide_eq_true_eq]
          intro hkey
          exact hnd.1 (hkey ▸ List.mem_map_of_mem Prod.fst hp)
        simp only [mapSet, if_pos rfl, countKey, List.filter_cons, decide_eq_true_eq]
        simp only [countKey] at this
        simp [this]
      · have ih2 := ih hnd.2
        simp only [mapSet, if_neg hk, countKey, List.filter_cons] at ih2 ⊢
        by_cases hk2 : k' = k
        · exact absurd hk2 hk
        · simp only [decide_eq_true_eq, hk2, if_false]
          simpa [countKey] using ih2

end MapLemmas

/-- Entries with a stored choice other than `some j` never count toward
`countChoice _ j`; overwriting a voter with a retracted (`none`) choice
leaves the approve and reject counts exactly those of the map without that
voter. -/
lemma countChoice_mapSet_none (m : List (Nat × Option Nat)) (u : Nat) (j : Nat) :
    countChoice (mapSet m u none) j = countChoice (eraseKey m u) j := by
  induction m with
  | nil => simp [mapSet, eraseKey, countChoice]
  | cons hd tl ih =>
      obtain ⟨k', v'⟩ := hd
      by_cases hk : k' = u
      · simp [mapSet, eraseKey, hk, countChoice, List.filter_cons]
      · simp only [mapSet, eraseKey, if_neg hk, countChoice, List.filter_cons] at ih ⊢
        by_cases hv : v' = some j
        · simpa [hv] using ih
        · simpa [hv] using ih

/-- Shape of `handlePollAnswer` when the vote finds its poll: the match on
`find?` rewritten away. -/
lemma handlePollAnswer_found (reg : List (String × PendingPoll))
    (pollId : String) (userId : Nat) (optionIds : List Nat)
    (key : String) (poll : PendingPoll)
    (hfind : reg.find? (fun e => decide (e.2.pollId = pollId)) = some (key, poll)) :
    handlePollAnswer reg pollId userId optionIds =
      if (mapSet poll.voters userId optionIds.head?).length ≥ poll.requiredVotes then
        (eraseKey reg key,
         if countChoice (mapSet poll.voters userId optionIds.head?) 0 >
             countChoice (mapSet poll.voters userId optionIds.head?) 1 then
           StepEffect.resolvedApproved poll.action poll.data poll.chatId
         else StepEffect.resolvedRejected poll.chatId)
      else
        (mapSet reg key { poll with voters := mapSet poll.voters userId optionIds.head? },
         StepEffect.progress (mapSet poll.voters userId optionIds.head?).length
           poll.requiredVotes
           (countChoice (mapSet poll.voters userId optionIds.head?) 0)
           (countChoice (mapSet poll.voters userId optionIds.head?) 1)) := by
  unfold handlePollAnswer
  rw [hfind]

/-- When the updated tally reaches the quorum, the step's effect is the
terminal resolution decided by `approve > reject`. -/
lemma resolved_effect_of_quorum (reg : List (String × PendingPoll))
    (pollId key : String) (poll : PendingPoll) (userId : Nat) (optionIds : List Nat)
    (hfind : reg.find? (fun e => decide (e.2.pollId = pollId)) = some (key, poll))
    (hge : (mapSet poll.voters userId optionIds.head?).length ≥ poll.requiredVotes) :
    (handlePollAnswer reg pollId userId optionIds).2 =
      (if countChoice (mapSet poll.voters userId optionIds.head?) 0 >
           countChoice (mapSet poll.voters userId optionIds.head?) 1 then
         StepEffect.resolvedApproved poll.action poll.data poll.chatId
       else StepEffect.resolvedRejected poll.chatId) := by
  rw [handlePollAnswer_found reg pollId userId optionIds key poll hfind,
    if_pos hge]

/-! ## C1: resolution on vote arrival -/

/-- C1: on a vote arrival that finds its poll, the step resolves exactly
when the new tally reaches `requiredVotes` (so quorum is the only
vote-arrival resolution trigger), and then it resolves to exactly one
terminal effect: Approved if `approve > reject`, else Rejected. -/
theorem vote_arrival_resolution (reg : List (String × PendingPoll))
    (pollId key : String) (poll : PendingPoll) (userId : Nat) (optionIds : List Nat)
    (hfind : reg.find? (fun e => decide (e.2.pollId = pollId)) = some (key, poll)) :
    (((handlePollAnswer reg pollId userId optionIds).2).isResolved = true ↔
      (mapSet poll.voters userId optionIds.head?).length ≥ poll.requiredVotes) ∧
    ((mapSet poll.voters userId optionIds.head?).length ≥ poll.requiredVotes →
      (handlePollAnswer reg pollId userId optionIds).2 =
        (if countChoice (mapSet poll.voters userId optionIds.head?) 0 >
             countChoice (mapSet poll.voters userId optionIds.head?) 1 then
           StepEffect.resolvedApproved poll.action poll.data poll.chatId
         else StepEffect.resolvedRejected poll.chatId)) := by
  rw [handlePollAnswer_found reg pollId userId optionIds key poll hfind]
  by_cases hge : (mapSet poll.voters userId optionIds.head?).length ≥ poll.requiredVotes
  · rw [if_pos hge]
    refine ⟨⟨fun _ => hge, fun _ => ?_⟩, fun _ => ?_⟩ <;>
      split <;> simp [StepEffect.isResolved]
  · rw [if_neg hge]
    exact ⟨⟨fun hres => by simp [StepEffect.isResolved] at hres,
      fun h => absurd h hge⟩, fun h => absurd h hge⟩

/-- Scenario A as the witness for C1: group of 10 with quorum 3, votes
Approve, Approve then Reject: the third vote resolves Approved. -/
theorem vote_arrival_resolution_witness :
    (handlePollAnswer
        [("poll_k",
          { pollId := "tg77", action := "place_order", data := {},
            voters := [(1, some 0), (2, some 0)], requiredVotes := 3,
            chatId := 5, messageId := 9 })]
        "tg77" 3 [1]).2 =
      (if countChoice
            (mapSet [(1, some 0), (2, some 0)] 3 (List.head? [1])) 0 >
          countChoice
            (mapSet [(1, some 0), (2, some 0)] 3 (List.head? [1])) 1 then
        StepEffect.resolvedApproved "place_order" {} 5
      else StepEffect.resolvedRejected 5) :=
  (vote_arrival_resolution
      [("poll_k",
        { pollId := "tg77", action := "place_order", data := {},
          voters := [(1, some 0), (2, some 0)], requiredVotes := 3,
          chatId := 5, messageId := 9 })]
      "tg77" "poll_k"
      { pollId := "tg77", action := "place_order", data := {},
        voters := [(1, some 0), (2, some 0)], requiredVotes := 3,
        chatId := 5, messageId := 9 }
      3 [1] (by decide)).2 (by decide)

/-! ## C6: last vote wins -/

/-- C6: a second vote from the same voter replaces the first: after
Approve (`some 0`) then Reject (`some 1`) from voter `u`, the tally holds
exactly one entry for `u`, its choice is Reject, and the tally is no larger
than after the first vote. -/
theorem last_vote_wins (m : List (Nat × Option Nat)) (u : Nat)
    (hnd : (keysOf m).Nodup) :
    countKey (mapSet (mapSet m u (some 0)) u (some 1)) u = 1 ∧
    lookupKey (mapSet (mapSet m u (some 0)) u (some 1)) u = some (some 1) ∧
    (mapSet (mapSet m u (some 0)) u (some 1)).length =
      (mapSet m u (some 0)).length := by
  refine ⟨?_, ?_, ?_⟩
  · rw [mapSet_mapSet_same]
    exact countKey_mapSet_self m u (some 1) hnd
  · rw [mapSet_mapSet_same]
    exact lookupKey_mapSet_self m u (some 1)
  · rw [mapSet_mapSet_same, length_mapSet_eraseKey, length_mapSet_eraseKey]

/-- Witness for C6 at a concrete tally: one other voter, then Approve and
Reject from voter 3. -/
theorem last_vote_wins_witness :
    countKey (mapSet (mapSet [(7, some 0)] 3 (some 0)) 3 (some 1)) 3 = 1 ∧
    lookupKey (mapSet (mapSet [(7, some 0)] 3 (some 0)) 3 (some 1)) 3 =
      some (some 1) ∧
    (mapSet (mapSet [(7, some 0)] 3 (some 0)) 3 (some 1)).length =
      (mapSet [(7, some 0)] 3 (some 0)).length :=
  last_vote_wins [(7, some 0)] 3 (by decide)

/-! ## C7: stale votes are ignored -/

/-- C7: a vote event whose poll id matches no registered poll returns the
`notFound` effect and leaves the registry exactly as it was (the handler
just returns; nothing can throw on this path). -/
theorem stale_vote_no_change (reg : List (String × PendingPoll))
    (pollId : String) (userId : Nat) (optionIds : List Nat)
    (habsent : reg.find? (fun e => decide (e.2.pollId = pollId)) = none) :
    handlePollAnswer reg pollId userId optionIds = (reg, StepEffect.notFound) := by
  unfold handlePollAnswer
  rw [habsent]

/-- Witness for C7: a registry holding one poll, and a vote for a poll id
that was never registered. -/
theorem stale_vote_no_change_witness :
    handlePollAnswer
        [("poll_k",
          { pollId := "tg77", action := "cancel_order", data := {},
            voters := [], requiredVotes := 2, chatId := 5, messageId := 9 })]
        "tg_gone" 4 [0] =
      ([("poll_k",
         { pollId := "tg77", action := "cancel_order", data := {},
           voters := [], requiredVotes := 2, chatId := 5, messageId := 9 })],
       StepEffect.notFound) :=
  stale_vote_no_change _ "tg_gone" 4 [0] (by decide)

/-! ## C10: retracted votes stay in the tally -/

/-- C10: a vote event with an empty `option_ids` list (a retraction) still
stores an entry for the voter (`option_ids[0]` is `undefined`): the voter
counts toward the total used against the quorum, counts as neither Approve
nor Reject, and such an event resolves the poll whenever the total reaches
the quorum — with `approve > reject` still the approval test. -/
theorem retraction_counted_neutral (reg : List (String × PendingPoll))
    (pollId key : String) (poll : PendingPoll) (userId : Nat)
    (hfind : reg.find? (fun e => decide (e.2.pollId = pollId)) = some (key, poll)) :
    lookupKey (mapSet poll.voters userId none) userId = some none ∧
    (mapSet poll.voters userId none).length =
      (eraseKey poll.voters userId).length + 1 ∧
    countChoice (mapSet poll.voters userId none) 0 =
      countChoice (eraseKey poll.voters userId) 0 ∧
    countChoice (mapSet poll.voters userId none) 1 =
      countChoice (eraseKey poll.voters userId) 1 ∧
    ((mapSet poll.voters userId none).length ≥ poll.requiredVotes →
      (handlePollAnswer reg pollId userId []).2 =
        (if countChoice (mapSet poll.voters userId none) 0 >
             countChoice (mapSet poll.voters userId none) 1 then
           StepEffect.resolvedApproved poll.action poll.data poll.chatId
         else StepEffect.resolvedRejected poll.chatId)) := by
  refine ⟨lookupKey_mapSet_self poll.voters userId none,
    length_mapSet_eraseKey poll.voters userId none,
    countChoice_mapSet_none poll.voters userId 0,
    countChoice_mapSet_none poll.voters userId 1, fun hge => ?_⟩
  have h := resolved_effect_of_quorum reg pollId key poll userId [] hfind
    (by simpa using hge)
  simpa using h

/-- Witness for C10: quorum 3, one Approve and one Reject already stored;
voter 3 retracts (`option_ids = []`).  The retraction itself completes the
quorum and, counting as neither choice, leaves `approve = reject`, so the
poll resolves Rejected. -/
theorem retraction_counted_neutral_witness :
    (handlePollAnswer
        [("poll_k",
          { pollId := "tg9", action := "close_position", data := {},
            voters := [(1, some 0), (2, some 1)], requiredVotes := 3,
            chatId := 5, messageId := 9 })]
        "tg9" 3 []).2 =
      (if countChoice (mapSet [(1, some 0), (2, some 1)] 3 none) 0 >
           countChoice (mapSet [(1, some 0), (2, some 1)] 3 none) 1 then
         StepEffect.resolvedApproved "close_position" {} 5
       else StepEffect.resolvedRejected 5) :=
  (retraction_counted_neutral
      [("poll_k",
        { pollId := "tg9", action := "close_position", data := {},
          voters := [(1, some 0), (2, some 1)], requiredVotes := 3,
          chatId := 5, messageId := 9 })]
      "tg9" "poll_k"
      { pollId := "tg9", action := "close_position", data := {},
        voters := [(1, some 0), (2, some 1)], requiredVotes := 3,
        chatId := 5, messageId := 9 }
      3 (by decide)).2.2.2.2 (by decide)

/-! ## C2: single-flight dispatch

Concurrency model: grammY runs every `poll_answer` handler on the Node.js
event loop, and `handlePollAnswer` performs its lookup, vote write, tally
and `pendingPolls.delete` synchronously, with no `await` between them
(bot.ts 4193-4216) — so concurrent vote arrivals are serialized into a
sequence of atomic steps.  A trace of vote events therefore models any
interleaving of vote-arrival handlers. -/

/-- One incoming `poll_answer` update. -/
structure VoteEvent : Type where
  pollId : String
  userId : Nat
  optionIds : List Nat
deriving DecidableEq, Repr

/-- Run a sequence of vote events through `handlePollAnswer`, logging each
event's effect. -/
def runEvents : List (String × PendingPoll) → List VoteEvent →
    List (String × PendingPoll) × List (VoteEvent × StepEffect)
  | reg, [] => (reg, [])
  | reg, e :: rest =>
      let step := handlePollAnswer reg e.pollId e.userId e.optionIds
      let next := runEvents step.1 rest
      (next.1, (e, step.2) :: next.2)

/-- How many steps of a trace resolved (hence dispatched for) the poll with
external id `pid`. -/
def resolutionsFor (log : List (VoteEvent × StepEffect)) (pid : String) : Nat :=
  (log.filter (fun q => decide (q.1.pollId = pid) && q.2.isResolved)).length

/-- Number of registry entries whose poll carries external id `pid`. -/
def countExt (reg : List (String × PendingPoll)) (pid : String) : Nat :=
  (reg.filter (fun e => decide (e.2.pollId = pid))).length

lemma one_le_countExt_of_mem (reg : List (String × PendingPoll))
    (key : String) (poll : PendingPoll) (pid : String)
    (hmem : (key, poll) ∈ reg) (hpid : poll.pollId = pid) :
    1 ≤ countExt reg pid := by
  have hf : (key, poll) ∈ reg.filter (fun e => decide (e.2.pollId = pid)) :=
    List.mem_filter.mpr ⟨hmem, by simp [hpid]⟩
  exact List.length_pos_of_mem hf

lemma find?_eq_none_of_countExt_zero (reg : List (String × PendingPoll))
    (pid : String) (hz : countExt reg pid = 0) :
    reg.find? (fun e => decide (e.2.pollId = pid)) = none := by
  rw [List.find?_eq_none]
  intro x hx
  have hnil : reg.filter (fun e => decide (e.2.pollId = pid)) = [] :=
    List.length_eq_zero.mp hz
  have := List.filter_eq_nil_iff.mp hnil x hx
  simpa using this

lemma eraseKey_cons_self {α β : Type} [DecidableEq α] (k : α) (v : β)
    (tl : List (α × β)) : eraseKey ((k, v) :: tl) k = tl := by
  simp [eraseKey]

lemma eraseKey_cons_ne {α β : Type} [DecidableEq α] (k' k : α) (v : β)
    (tl : List (α × β)) (h : k' ≠ k) :
    eraseKey ((k', v) :: tl) k = (k', v) :: eraseKey tl k := by
  simp [eraseKey, h]

lemma mapSet_cons_self {α β : Type} [DecidableEq α] (k : α) (v' v : β)
    (tl : List (α × β)) : mapSet ((k, v') :: tl) k v = (k, v) :: tl := by
  simp [mapSet]

lemma mapSet_cons_ne {α β : Type} [DecidableEq α] (k' k : α) (v' v : β)
    (tl : List (α × β)) (h : k' ≠ k) :
    mapSet ((k', v') :: tl) k v = (k', v') :: mapSet tl k v := by
  simp [mapSet, h]

lemma countExt_cons (k : String) (p : PendingPoll)
    (tl : List (String × PendingPoll)) (pid : String) :
    countExt ((k, p) :: tl) pid =
      countExt tl pid + (if p.pollId = pid then 1 else 0) := by
  by_cases h : p.pollId = pid <;> simp [countExt, List.filter_cons, h]

/-- With duplicate-free keys, a member `(key, poll)` is the unique entry
its key points at. -/
lemma head_eq_of_mem_nodup (key : String) (poll p' : PendingPoll)
    (tl : List (String × PendingPoll))
    (hnd : key ∉ List.map Prod.fst tl)
    (hmem : (key, poll) ∈ (key, p') :: tl) : p' = poll := by
  rcases List.mem_cons.mp hmem with heq | hmemtl
  · exact (congrArg Prod.snd heq).symm
  · exact absurd (List.mem_map_of_mem Prod.fst hmemtl) hnd

lemma mem_tail_of_mem_cons_ne (key k' : String) (poll p' : PendingPoll)
    (tl : List (String × PendingPoll)) (hk : k' ≠ key)
    (hmem : (key, poll) ∈ (k', p') :: tl) : (key, poll) ∈ tl := by
  rcases List.mem_cons.mp hmem with heq | h
  · exact absurd (congrArg Prod.fst heq).symm hk
  · exact h

lemma countExt_eraseKey (reg : List (String × PendingPoll)) (key : String)
    (poll : PendingPoll) (pid : String)
    (hnd : (keysOf reg).Nodup) (hmem : (key, poll) ∈ reg) :
    countExt (eraseKey reg key) pid + (if poll.pollId = pid then 1 else 0) =
      countExt reg pid := by
  induction reg with
  | nil => cases hmem
  | cons hd tl ih =>
      obtain ⟨k', p'⟩ := hd
      simp only [keysOf, List.map_cons, List.nodup_cons] at hnd
      by_cases hk : k' = key
      · subst hk
        have hp := head_eq_of_mem_nodup k' poll p' tl hnd.1 hmem
        subst hp
        rw [eraseKey_cons_self, countExt_cons]
      · have hmemtl := mem_tail_of_mem_cons_ne key k' poll p' tl hk hmem
        have ihm := ih hnd.2 hmemtl
        rw [eraseKey_cons_ne k' key p' tl hk, countExt_cons, countExt_cons]
        omega

lemma countExt_mapSet (reg : List (String × PendingPoll)) (key : String)
    (poll poll2 : PendingPoll) (pid : String)
    (hnd : (keysOf reg).Nodup) (hmem : (key, poll) ∈ reg)
    (hpid : poll2.pollId = poll.pollId) :
    countExt (mapSet reg key poll2) pid = countExt reg pid := by
  induction reg with
  | nil => cases hmem
  | cons hd tl ih =>
      obtain ⟨k', p'⟩ := hd
      simp only [keysOf, List.map_cons, List.nodup_cons] at hnd
      by_cases hk : k' = key
      · subst hk
        have hp := head_eq_of_mem_nodup k' poll p' tl hnd.1 hmem
        subst hp
        rw [mapSet_cons_self, countExt_cons, countExt_cons, hpid]
      · have hmemtl := mem_tail_of_mem_cons_ne key k' poll p' tl hk hmem
        have ihm := ih hnd.2 hmemtl
        rw [mapSet_cons_ne k' key p' poll2 tl hk, countExt_cons, countExt_cons,
          ihm]

lemma resolutionsFor_cons (e : VoteEvent) (eff : StepEffect)
    (log : List (VoteEvent × StepEffect)) (pid : String) :
    resolutionsFor ((e, eff) :: log) pid =
      resolutionsFor log pid +
        (if (decide (e.pollId = pid) && eff.isResolved) = true then 1 else 0) := by
  by_cases h : (decide (e.pollId = pid) && eff.isResolved) = true <;>
    simp [resolutionsFor, List.filter_cons, h]

lemma runEvents_cons (reg : List (String × PendingPoll)) (e : VoteEvent)
    (rest : List VoteEvent) :
    runEvents reg (e :: rest) =
      ((runEvents (handlePollAnswer reg e.pollId e.userId e.optionIds).1 rest).1,
       (e, (handlePollAnswer reg e.pollId e.userId e.optionIds).2) ::
         (runEvents (handlePollAnswer reg e.pollId e.userId e.optionIds).1 rest).2) :=
  rfl

lemma ite_le_one (c : Prop) [Decidable c] : (if c then 1 else 0) ≤ 1 := by
  split <;> omega

/-- Over any trace of vote events, the poll with external id `pid` is
resolved (and so dispatched) at most as many times as it has registry
entries: `handlePollAnswer` evicts the entry in the same synchronous
section that observes the terminal transition, and it never adds one. -/
lemma resolutionsFor_le_countExt (evs : List VoteEvent)
    (reg : List (String × PendingPoll)) (pid : String)
    (hnd : (keysOf reg).Nodup) :
    resolutionsFor (runEvents reg evs).2 pid ≤ countExt reg pid := by
  induction evs generalizing reg with
  | nil => simp [runEvents, resolutionsFor]
  | cons e rest ih =>
      rw [runEvents_cons]
      cases hfind : reg.find? (fun x => decide (x.2.pollId = e.pollId)) with
      | none =>
          have hstep : handlePollAnswer reg e.pollId e.userId e.optionIds =
              (reg, StepEffect.notFound) := by
            unfold handlePollAnswer
            rw [hfind]
          simp only [hstep]
          simp only [resolutionsFor_cons, StepEffect.isResolved, Bool.and_false,
            if_false, Nat.add_zero]
          exact ih reg hnd
      | some kp =>
          obtain ⟨key, poll⟩ := kp
          have hmem := List.mem_of_find?_eq_some hfind
          have hpid : poll.pollId = e.pollId := by
            simpa using List.find?_some hfind
          have hshape := handlePollAnswer_found reg e.pollId e.userId e.optionIds
            key poll hfind
          by_cases hge :
              (mapSet poll.voters e.userId e.optionIds.head?).length ≥
                poll.requiredVotes
          · rw [if_pos hge] at hshape
            simp only [hshape]
            have hnd2 : (keysOf (eraseKey reg key)).Nodup :=
              nodup_keysOf_eraseKey reg key hnd
            have hcnt := countExt_eraseKey reg key poll pid hnd hmem
            have htail := ih (eraseKey reg key) hnd2
            rw [resolutionsFor_cons]
            by_cases hp : e.pollId = pid
            · rw [if_pos (hpid.trans hp)] at hcnt
              refine le_trans (Nat.add_le_add htail (ite_le_one _)) ?_
              omega
            · have hppid : ¬ poll.pollId = pid := fun h => hp (hpid.symm.trans h)
              rw [if_neg hppid, Nat.add_zero] at hcnt
              have hhead : (decide (e.pollId = pid) &&
                  StepEffect.isResolved
                    (if countChoice (mapSet poll.voters e.userId e.optionIds.head?) 0 >
                        countChoice (mapSet poll.voters e.userId e.optionIds.head?) 1 then
                      StepEffect.resolvedApproved poll.action poll.data poll.chatId
                    else StepEffect.resolvedRejected poll.chatId)) = false := by
                simp [hp]
              rw [hhead]
              have hz : (if (false = true) then 1 else 0) = 0 := rfl
              rw [hz, Nat.add_zero]
              omega
          · rw [if_neg hge] at hshape
            simp only [hshape]
            have hnd2 :
                (keysOf (mapSet reg key
                  { poll with
                      voters := mapSet poll.voters e.userId e.optionIds.head? })).Nodup :=
              nodup_keysOf_mapSet reg key _ hnd
            have hcnt := countExt_mapSet reg key poll
              { poll with voters := mapSet poll.voters e.userId e.optionIds.head? }
              pid hnd hmem rfl
            have htail := ih _ hnd2
            rw [resolutionsFor_cons]
            simp only [StepEffect.isResolved, Bool.and_false]
            have hz : (if (false = true) then 1 else 0) = 0 := rfl
            rw [hz, Nat.add_zero]
            omega

/-- C2: dispatch is single-flight.  If the registry holds at most one entry
for external poll id `pid` (with well-formed, duplicate-free keys), then
(a) any trace of vote arrivals resolves — and so dispatches — `pid` at most
once, and (b) immediately after a vote arrival `e` is observed to resolve
`pid`, the entry is already evicted: any further vote for `pid` is a
no-op on an unchanged registry. -/
theorem dispatch_single_flight (reg : List (String × PendingPoll))
    (pid : String) (evs : List VoteEvent) (e : VoteEvent)
    (userId2 : Nat) (optionIds2 : List Nat)
    (hnd : (keysOf reg).Nodup) (hcnt : countExt reg pid ≤ 1)
    (hpid : e.pollId = pid)
    (hres : ((handlePollAnswer reg e.pollId e.userId e.optionIds).2).isResolved = true) :
    resolutionsFor (runEvents reg evs).2 pid ≤ 1 ∧
    handlePollAnswer (handlePollAnswer reg e.pollId e.userId e.optionIds).1
        pid userId2 optionIds2 =
      ((handlePollAnswer reg e.pollId e.userId e.optionIds).1,
       StepEffect.notFound) := by
  constructor
  · exact le_trans (resolutionsFor_le_countExt evs reg pid hnd) hcnt
  · cases hfind : reg.find? (fun x => decide (x.2.pollId = e.pollId)) with
    | none =>
        have hstep : handlePollAnswer reg e.pollId e.userId e.optionIds =
            (reg, StepEffect.notFound) := by
          unfold handlePollAnswer
          rw [hfind]
        rw [hstep] at hres
        simp [StepEffect.isResolved] at hres
    | some kp =>
        obtain ⟨key, poll⟩ := kp
        have hmem := List.mem_of_find?_eq_some hfind
        have hpoll : poll.pollId = e.pollId := by
          simpa using List.find?_some hfind
        have hshape := handlePollAnswer_found reg e.pollId e.userId e.optionIds
          key poll hfind
        by_cases hge :
            (mapSet poll.voters e.userId e.optionIds.head?).length ≥
              poll.requiredVotes
        · rw [if_pos hge] at hshape
          have hone : 1 ≤ countExt reg pid :=
            one_le_countExt_of_mem reg key poll pid hmem (hpoll.trans hpid)
          have herase := countExt_eraseKey reg key poll pid hnd hmem
          have hz : countExt (eraseKey reg key) pid = 0 := by
            rw [if_pos (hpoll.trans hpid)] at herase
            omega
          have hnone := find?_eq_none_of_countExt_zero (eraseKey reg key) pid hz
          rw [hshape]
          unfold handlePollAnswer
          rw [hnone]
        · rw [if_neg hge] at hshape
          rw [hshape] at hres
          simp [StepEffect.isResolved] at hres

/-- Witness for C2: one registered poll with quorum 1; the first Approve
vote resolves it, the trace of both votes dispatches once, and the second
vote hits an empty registry. -/
theorem dispatch_single_flight_witness :
    resolutionsFor
        (runEvents
          [("poll_k",
            { pollId := "tgA", action := "place_order", data := {},
              voters := [], requiredVotes := 1, chatId := 5, messageId := 9 })]
          [⟨"tgA", 1, [0]⟩, ⟨"tgA", 2, [1]⟩]).2 "tgA" ≤ 1 ∧
    handlePollAnswer
        (handlePollAnswer
          [("poll_k",
            { pollId := "tgA", action := "place_order", data := {},
              voters := [], requiredVotes := 1, chatId := 5, messageId := 9 })]
          (VoteEvent.pollId ⟨"tgA", 1, [0]⟩) (VoteEvent.userId ⟨"tgA", 1, [0]⟩)
          (VoteEvent.optionIds ⟨"tgA", 1, [0]⟩)).1
        "tgA" 2 [1] =
      ((handlePollAnswer
          [("poll_k",
            { pollId := "tgA", action := "place_order", data := {},
              voters := [], requiredVotes := 1, chatId := 5, messageId := 9 })]
          (VoteEvent.pollId ⟨"tgA", 1, [0]⟩) (VoteEvent.userId ⟨"tgA", 1, [0]⟩)
          (VoteEvent.optionIds ⟨"tgA", 1, [0]⟩)).1,
       StepEffect.notFound) :=
  dispatch_single_flight
    [("poll_k",
      { pollId := "tgA", action := "place_order", data := {},
        voters := [], requiredVotes := 1, chatId := 5, messageId := 9 })]
    "tgA" [⟨"tgA", 1, [0]⟩, ⟨"tgA", 2, [1]⟩] ⟨"tgA", 1, [0]⟩ 2 [1]
    (by decide) (by decide) (by decide) (by decide)

/-! ## C4: oracle failure -/

/-- C4 counterexample: in a group chat whose member-count lookup fails,
`getGroupMemberCount` falls back to member count 1, and the quorum formula
then yields `requiredVotes = 2` (the min-votes clamp) — not the
`requiredVotes = 1` the claim states.  (A private chat never calls the
oracle, so a group chat is the only place the oracle can fail.) -/
theorem oracle_failure_not_one :
    createVotingPollRequired ChatType.group (Except.error ()) = 2 ∧
    ¬ createVotingPollRequired ChatType.group (Except.error ()) = 1 := by
  have h : createVotingPollRequired ChatType.group (Except.error ()) = 2 := by
    simp only [createVotingPollRequired, getGroupMemberCount, requiredVotesCalc,
      isGroupChat]
    norm_num [natCeil_mul_three_tenths]
  exact ⟨h, by rw [h]; decide⟩

/-- C4 amended: on oracle failure the engine falls back to a member count
of 1; the clamp then gives `requiredVotes = 2` for a group chat (1 for the
non-group case where the oracle is never consulted), and the proposal is
not blocked — with the transport succeeding, the poll is still created and
registered. -/
theorem oracle_failure_degraded (chatType : ChatType)
    (reg : List (String × PendingPoll)) (t : TransportOk)
    (pollKey action : String) (data : ActionData) (chatId : Int) :
    getGroupMemberCount chatType (Except.error ()) = 1 ∧
    createVotingPollRequired chatType (Except.error ()) =
      (if isGroupChat chatType then 2 else 1) ∧
    (createVotingPoll reg chatType (Except.error ()) (Except.ok t)
        pollKey action data chatId).2 = Except.ok pollKey := by
  refine ⟨?_, ?_, ?_⟩
  · cases chatType <;> simp [getGroupMemberCount, isGroupChat]
  · cases chatType <;>
      · simp only [createVotingPollRequired, getGroupMemberCount,
          requiredVotesCalc, isGroupChat]
        norm_num [natCeil_mul_three_tenths]
  · simp [createVotingPoll]

/-! ## C9: transport failure fails closed -/

/-- C9: if the Poll Transport throws during poll creation, the throw
happens before `pendingPolls.set`, so `createVotingPoll` leaves the
registry unchanged and propagates the error; the proposer path
(`executeOrder`) catches it and reports `Error creating order poll: …` to
the proposer, and no registry entry exists for the proposal afterwards. -/
theorem transport_failure_fail_closed (reg : List (String × PendingPoll))
    (chatType : ChatType) (oracle : Except Unit Nat) (errMsg : String)
    (pollKey : String) (data : ActionData) (chatId : Int)
    (hkey : lookupKey reg pollKey = none) :
    createVotingPoll reg chatType oracle (Except.error errMsg)
        pollKey "place_order" data chatId = (reg, Except.error errMsg) ∧
    executeOrder reg true chatType oracle (Except.error errMsg)
        pollKey data chatId =
      (reg, some ("Error creating order poll: " ++ errMsg)) ∧
    lookupKey (executeOrder reg true chatType oracle (Except.error errMsg)
        pollKey data chatId).1 pollKey = none := by
  refine ⟨rfl, ?_, ?_⟩
  · simp [executeOrder, createVotingPoll]
  · simp [executeOrder, createVotingPoll, hkey]

/-- Witness for C9: an empty registry, a failing transport: the error is
surfaced and nothing is registered. -/
theorem transport_failure_fail_closed_witness :
    createVotingPoll [] ChatType.group (Except.ok 10) (Except.error "sendPoll failed")
        "poll_w" "place_order" {} 5 = ([], Except.error "sendPoll failed") ∧
    executeOrder [] true ChatType.group (Except.ok 10) (Except.error "sendPoll failed")
        "poll_w" {} 5 =
      ([], some ("Error creating order poll: " ++ "sendPoll failed")) ∧
    lookupKey (executeOrder [] true ChatType.group (Except.ok 10)
        (Except.error "sendPoll failed") "poll_w" {} 5).1 "poll_w" = none :=
  transport_failure_fail_closed [] ChatType.group (Except.ok 10) "sendPoll failed"
    "poll_w" {} 5 (by decide)

/-! ## C5: the deadline path -/

/-- C5 counterexample: the spec's deadline rule at one Approve vote out of
one total (threshold 0.5) says Approved (`1/1 ≥ 0.5`), but the repository's
only deadline implementation (`checkPollResults`, README) resolves the same
poll with the rejection notice: it never reads the real approve tally — the
historical store does not even record choices — and instead simulates
`approvalVotes = floor(1 * 0.6) = 0`, so `0/1 < 0.5`.  (The live
`handlePollAnswer`/`pendingPolls` engine registers no deadline timer at
all.) -/
theorem deadline_rule_counterexample :
    deadlineRuleSpec 1 1 (1 / 2) = true ∧
    (checkPollResults
        [("vote_1", { pollId := "tg1", action := "transfer", voters := [42] })]
        "vote_1" (1 / 2)).2 = DeadlineOutcome.rejectedNotice "transfer" := by
  constructor
  · norm_num [deadlineRuleSpec]
  · norm_num [checkPollResults, lookupKey]

/-- C5 amended: in the repository's timer path (`checkPollResults`, run
once `votingTimePeriod` seconds — default 300 — after poll creation; the
live vote-arrival engine registers no such timer), a poll still registered
at the deadline always reaches a terminal state: its entry is removed, and
it is approved iff the voter count is positive and the *simulated* approval
count `floor(total * 0.6)` — not the real approve tally — reaches
`votingThreshold` (default 0.5) as a fraction of the total; otherwise the
rejection notice is sent. -/
theorem deadline_check_terminal (pendingVotes : List (String × VoteDataHist))
    (pollKey : String) (threshold : ℚ) (vd : VoteDataHist)
    (hfound : lookupKey pendingVotes pollKey = some vd) :
    (checkPollResults pendingVotes pollKey threshold).1 =
      eraseKey pendingVotes pollKey ∧
    (checkPollResults pendingVotes pollKey threshold).2 =
      (if (decide (0 < vd.voters.length) &&
           decide (threshold ≤
             ((vd.voters.length * 6 / 10 : Nat) : ℚ) / (vd.voters.length : ℚ))) = true
       then DeadlineOutcome.approvedExec vd.action
       else DeadlineOutcome.rejectedNotice vd.action) := by
  have hshape : checkPollResults pendingVotes pollKey threshold =
      (if (decide (0 < vd.voters.length) &&
           decide (threshold ≤
             ((vd.voters.length * 6 / 10 : Nat) : ℚ) / (vd.voters.length : ℚ))) = true
       then (eraseKey pendingVotes pollKey, DeadlineOutcome.approvedExec vd.action)
       else (eraseKey pendingVotes pollKey,
         DeadlineOutcome.rejectedNotice vd.action)) := by
    unfold checkPollResults
    rw [hfound]
  rw [hshape]
  constructor
  · split <;> rfl
  · split_ifs <;> rfl

/-- Witness for C5's amended theorem: two voters at threshold 0.5 — the
simulated count `floor(2 * 0.6) = 1` gives `1/2 ≥ 0.5`, so the entry is
removed and the stub approval fires. -/
theorem deadline_check_terminal_witness :
    (checkPollResults
        [("vote_2", { pollId := "tg2", action := "deposit", voters := [4, 7] })]
        "vote_2" (1 / 2)).1 =
      eraseKey
        [("vote_2", { pollId := "tg2", action := "deposit", voters := [4, 7] })]
        "vote_2" ∧
    (checkPollResults
        [("vote_2", { pollId := "tg2", action := "deposit", voters := [4, 7] })]
        "vote_2" (1 / 2)).2 =
      (if (decide (0 < ([4, 7] : List Nat).length) &&
           decide ((1 / 2 : ℚ) ≤
             ((([4, 7] : List Nat).length * 6 / 10 : Nat) : ℚ) /
               (([4, 7] : List Nat).length : ℚ))) = true
       then DeadlineOutcome.approvedExec "deposit"
       else DeadlineOutcome.rejectedNotice "deposit") :=
  deadline_check_terminal _ "vote_2" (1 / 2)
    { pollId := "tg2", action := "deposit", voters := [4, 7] } (by decide)

/-! ## C8: the dispatcher's action kinds -/

/-- C8 counterexample: the dispatcher does not invoke an executor for
every one of the eight action kinds.  For the kind Deposit (action string
`deposit`, as the repository's historical voting path names it) the
`switch` of `executeApprovedAction` falls to the `default` branch: no
executor is invoked and nothing is reported to the chat, only
`Unknown action` is logged.  Only `place_order`, `cancel_order` and
`close_position` are wired. -/
theorem dispatcher_deposit_not_executed :
    executeApprovedAction (some 99) "deposit" {} (fun _ => Except.ok ()) =
      DispatchOutcome.unknownAction 99 ∧
    ¬ ∃ (call : ExecCall) (r : Option String),
        executeApprovedAction (some 99) "deposit" {} (fun _ => Except.ok ()) =
          DispatchOutcome.executed 99 call r := by
  have h : executeApprovedAction (some 99) "deposit" {} (fun _ => Except.ok ()) =
      DispatchOutcome.unknownAction 99 := by rfl
  refine ⟨h, ?_⟩
  rintro ⟨call, r, hex⟩
  rw [h] at hex
  exact DispatchOutcome.noConfusion hex

/-- C8 amended: on approval the dispatcher invokes the kind-specific
executor with the stored payload, and reports executor failure to the
chat, for exactly the three wired kinds `place_order`, `cancel_order` and
`close_position`; any other action string (the remaining five spec kinds
have no voting dispatch path) hits the `default` branch with no executor
call and no chat report; and a Rejected resolution never reaches the
dispatcher, so no execution occurs there. -/
theorem dispatcher_wired_kinds (c : Int) (data : ActionData)
    (runExec : ExecCall → Except String Unit) (a : String)
    (hc : ¬ c = 0) (h1 : ¬ a = "place_order") (h2 : ¬ a = "cancel_order")
    (h3 : ¬ a = "close_position") :
    executeApprovedAction (some c) "place_order" data runExec =
      DispatchOutcome.executed c
        (ExecCall.executeOrderDirect data.marketId data.orderSide data.leverage
          data.orderType data.size data.limitPrice)
        (execErrorReport "place_order" (runExec
          (ExecCall.executeOrderDirect data.marketId data.orderSide data.leverage
            data.orderType data.size data.limitPrice))) ∧
    executeApprovedAction (some c) "cancel_order" data runExec =
      DispatchOutcome.executed c (ExecCall.cancelOrderDirect data.orderId)
        (execErrorReport "cancel_order" (runExec
          (ExecCall.cancelOrderDirect data.orderId))) ∧
    executeApprovedAction (some c) "close_position" data runExec =
      DispatchOutcome.executed c
        (ExecCall.closePositionDirect data.tradeId data.marketId data.tradeSide)
        (execErrorReport "close_position" (runExec
          (ExecCall.closePositionDirect data.tradeId data.marketId data.tradeSide))) ∧
    executeApprovedAction (some c) a data runExec =
      DispatchOutcome.unknownAction c ∧
    dispatchEffect (some c) runExec (StepEffect.resolvedRejected c) = none := by
  refine ⟨?_, ?_, ?_, ?_, rfl⟩ <;>
    simp [executeApprovedAction, jsOrInt, hc, h1, h2, h3]

/-- Witness for C8's amended theorem: chat 7, a failing executor (so the
failure report is exercised), and `deposit` as the unwired action. -/
theorem dispatcher_wired_kinds_witness :
    executeApprovedAction (some 7) "place_order"
        { marketId := some "m1", size := some 2 } (fun _ => Except.error "boom") =
      DispatchOutcome.executed 7
        (ExecCall.executeOrderDirect (some "m1") none none none (some 2) none)
        (execErrorReport "place_order" (Except.error "boom")) ∧
    executeApprovedAction (some 7) "cancel_order"
        { marketId := some "m1", size := some 2 } (fun _ => Except.error "boom") =
      DispatchOutcome.executed 7 (ExecCall.cancelOrderDirect none)
        (execErrorReport "cancel_order" (Except.error "boom")) ∧
    executeApprovedAction (some 7) "close_position"
        { marketId := some "m1", size := some 2 } (fun _ => Except.error "boom") =
      DispatchOutcome.executed 7
        (ExecCall.closePositionDirect none (some "m1") none)
        (execErrorReport "close_position" (Except.error "boom")) ∧
    executeApprovedAction (some 7) "deposit"
        { marketId := some "m1", size := some 2 } (fun _ => Except.error "boom") =
      DispatchOutcome.unknownAction 7 ∧
    dispatchEffect (some 7) (fun _ => Except.error "boom")
        (StepEffect.resolvedRejected 7) = none :=
  dispatcher_wired_kinds 7 { marketId := some "m1", size := some 2 }
    (fun _ => Except.error "boom") "deposit"
    (by decide) (by decide) (by decide) (by decide)

end AptosTelegram
